import Mathlib

/-!
Shallow embedding of the TRACE32 RCL client library's transport and binary
codec layer (package `lauterbach.trace32.rcl`, modules `_rc/hlinknet.py`,
`_rc/_register.py`, `_rc/_address.py`, `_rc/_breakpoint.py`,
`_rc/_memory_bundle.py`, `_rc/_directaccess.py`, `_rc/_library.py`).

Conventions of the embedding:
* Python `bytes` values are `List Nat`, each element a byte value `< 256`
  (the encoders only ever produce values `< 256` because they reduce mod 256
  exactly where `struct.pack` would).
* Python integers are `Int` (or `Nat` where the source value is known
  nonnegative), with explicit `% 2 ^ w` reductions where the source packs
  fixed-width fields.
* Python `float` attributes are carried opaquely: none of the verified claims
  computes with a float, only stores and compares them, so the carrier type
  `PyFloat` is an arbitrary fixed type with decidable equality.
* Fallible code (Python `raise`) is modelled with `Except PyErr`.
-/

namespace T32

/-- Stand-in for Python `float` attribute values.  The proofs below only store
and compare these values, never compute with them, so a rational carrier is
adequate. -/
abbrev PyFloat := Rat

deriving instance DecidableEq for Except

/-- Python exceptions raised by the modelled code paths. -/
inductive PyErr where
  /-- `struct.error` from `struct.pack` / `struct.pack_into` on overflow. -/
  | structError
  /-- `OverflowError` from `int.to_bytes` when the value does not fit. -/
  | overflowError
  /-- `TypeError` (e.g. `None + 0` inside `Address.serialize`). -/
  | typeError
  /-- `ValueError` (unknown address type or unknown tagged-field id). -/
  | valueError
  /-- `UnboundLocalError`: a local variable referenced before assignment. -/
  | unboundLocal
  /-- `NotImplementedError` from `MemoryAccessBundle.serialize`. -/
  | notImplementedError
  /-- `lauterbach.trace32.rcl._rc._directaccess.DirectAccessError`. -/
  | directAccessError
  /-- built-in `ConnectionError` (transport desynchronisation). -/
  | connectionError
  /-- `IndexError` from indexing past the end of a bytes object. -/
  | indexError
deriving DecidableEq, Repr

/-- Little-endian encoding of `n` into `len` bytes, as done by
`struct.pack("<...")` and `int.to_bytes(len, "little")` (value reduced
mod `2 ^ (8 * len)`; the callers check the range where Python would raise). -/
def leBytes : Nat → Nat → List Nat
  | 0, _ => []
  | len + 1, n => n % 256 :: leBytes len (n / 256)

/-- Little-endian decoding of a byte list, as done by
`int.from_bytes(b, byteorder="little")`. -/
def fromBytesLE (l : List Nat) : Nat :=
  l.foldr (fun b acc => b + 256 * acc) 0

theorem leBytes_length (len n : Nat) : (leBytes len n).length = len := by
  induction len generalizing n with
  | zero => rfl
  | succ k ih => simp [leBytes, ih]

theorem fromBytesLE_leBytes (len n : Nat) :
    fromBytesLE (leBytes len n) = n % 2 ^ (8 * len) := by
  induction len generalizing n with
  | zero => simp [leBytes, fromBytesLE, Nat.mod_one]
  | succ k ih =>
    simp only [leBytes, fromBytesLE, List.foldr] at *
    rw [ih (n / 256)]
    rw [show 2 ^ (8 * (k + 1)) = 256 * 2 ^ (8 * k) by
      rw [Nat.mul_succ, pow_add]; ring]
    rw [Nat.mod_mul]

/-- `int2bytearray` from `common.py`: encodes an integer into `length` bytes,
signed two's complement when negative, unsigned otherwise; `int.to_bytes`
raises `OverflowError` when the value does not fit. -/
def int2bytearray (n : Int) (length : Nat) : Except PyErr (List Nat) :=
  if n < 0 then
    if -(2 ^ (8 * length - 1) : Int) ≤ n then
      .ok (leBytes length (n + 2 ^ (8 * length)).toNat)
    else .error .overflowError
  else
    if n < (2 ^ (8 * length) : Int) then
      .ok (leBytes length n.toNat)
    else .error .overflowError

/-! ## `_register.py`: the `Register` object -/

/-- The mutable attribute state of `Register` (`_rc/_register.py`).  The
name-mangled backing fields `__core`, `__name`, `__unit`, `__value`,
`__fvalue` become record fields; the `conn` back-reference plays no role in
any verified claim and is omitted. -/
structure Register where
  core : Option Int
  name : Option String
  unit : Option String
  value : Option Int
  fvalue : Option PyFloat
deriving DecidableEq, Repr

/-- `Register.value` setter: `None` stores `None` (leaving `fvalue` alone);
an `int` stores the value and clears `fvalue`.  The remaining Python branch
raises `RegisterValueError` for non-`int` arguments and is excluded by the
argument type here. -/
def Register.setValue (r : Register) : Option Int → Register
  | none => { r with value := none }
  | some n => { r with value := some n, fvalue := none }

/-- `Register.fvalue` setter: `None` stores `None`; a `float` stores the
value and clears `value`.  The non-`float` `RegisterValueError` branch is
excluded by the argument type. -/
def Register.setFvalue (r : Register) : Option PyFloat → Register
  | none => { r with fvalue := none }
  | some f => { r with fvalue := some f, value := none }

/-- `Register.__init__`: stores `core`, `name`, `unit` directly, then runs the
`value` setter followed by the `fvalue` setter (in source order). -/
def Register.init (core : Option Int) (name unit : Option String)
    (value : Option Int) (fvalue : Option PyFloat) : Register :=
  ((⟨core, name, unit, none, none⟩ : Register).setValue value).setFvalue fvalue

/-- `Register.__eq__`: two registers compare equal iff they agree on `core`,
`name` and `value`; `unit` and `fvalue` are not consulted. -/
def Register.pyEq (a b : Register) : Bool :=
  a.core == b.core && a.name == b.name && a.value == b.value

/-- One assignment to the `value` or `fvalue` attribute of a `Register`
(the only attribute writes claim C7 quantifies over). -/
inductive RegAssign where
  | value (v : Option Int)
  | fvalue (f : Option PyFloat)

/-- Apply one attribute assignment through the corresponding Python setter. -/
def Register.applyAssign (r : Register) : RegAssign → Register
  | .value v => r.setValue v
  | .fvalue f => r.setFvalue f

/-- At most one of `value` / `fvalue` is non-`None`. -/
def Register.exclusive (r : Register) : Prop :=
  r.value = none ∨ r.fvalue = none

theorem Register.exclusive_applyAssign (r : Register) (e : RegAssign)
    (h : r.exclusive) : (r.applyAssign e).exclusive := by
  rcases e with v | f
  · rcases v with _ | n
    · rcases h with hv | hf
      · exact Or.inl (by simp [applyAssign, setValue, hv])
      · exact Or.inr (by simp [applyAssign, setValue, hf])
    · exact Or.inr (by simp [applyAssign, setValue])
  · rcases f with _ | x
    · rcases h with hv | hf
      · exact Or.inl (by simp [applyAssign, setFvalue, hv])
      · exact Or.inr (by simp [applyAssign, setFvalue, hf])
    · exact Or.inl (by simp [applyAssign, setFvalue])

theorem Register.exclusive_init (core : Option Int) (name unit : Option String)
    (value : Option Int) (fvalue : Option PyFloat) :
    (Register.init core name unit value fvalue).exclusive := by
  cases value <;> cases fvalue <;>
    simp [Register.init, Register.setValue, Register.setFvalue, Register.exclusive]

theorem Register.exclusive_foldl (r : Register) (es : List RegAssign)
    (h : r.exclusive) : (es.foldl Register.applyAssign r).exclusive := by
  induction es generalizing r with
  | nil => exact h
  | cons e es ih => exact ih _ (Register.exclusive_applyAssign r e h)

/-- Claim C7: assigning an `int` to `value` leaves `fvalue` `None`, assigning
a `float` to `fvalue` leaves `value` `None`, and consequently after any
sequence of `value`/`fvalue` assignments to a freshly constructed `Register`
at most one of the two attributes is non-`None`. -/
theorem register_value_fvalue_exclusive :
    (∀ (r : Register) (v : Int), (r.setValue (some v)).fvalue = none) ∧
    (∀ (r : Register) (f : PyFloat), (r.setFvalue (some f)).value = none) ∧
    (∀ (core : Option Int) (name unit : Option String) (value : Option Int)
       (fvalue : Option PyFloat) (es : List RegAssign),
       (es.foldl Register.applyAssign
         (Register.init core name unit value fvalue)).exclusive) :=
  ⟨fun r v => by simp [Register.setValue],
   fun r f => by simp [Register.setFvalue],
   fun core name unit value fvalue es =>
     Register.exclusive_foldl _ es (Register.exclusive_init core name unit value fvalue)⟩

/-- Claim C10: `Register.__eq__` consults only `core`, `name` and `value`;
two registers agreeing on those three compare equal even when they differ in
`fvalue` or `unit`. -/
theorem register_pyEq_ignores_fvalue_unit (a b : Register)
    (hcore : a.core = b.core) (hname : a.name = b.name) (hvalue : a.value = b.value)
    (_hdiff : a.fvalue ≠ b.fvalue ∨ a.unit ≠ b.unit) :
    a.pyEq b = true := by
  simp [Register.pyEq, hcore, hname, hvalue]

/-- Witness for claim C10 at concrete registers differing in both `fvalue`
and `unit`. -/
theorem register_pyEq_ignores_fvalue_unit_witness :
    Register.pyEq ⟨some 0, some "PC", some "CPU", some 4096, none⟩
      ⟨some 0, some "PC", some "FPU", some 4096, some (1 : PyFloat)⟩ = true :=
  register_pyEq_ignores_fvalue_unit _ _ rfl rfl rfl (.inl (by decide))

/-! ## `hlinknet.py`: `Link.__init__` transport selection -/

/-- The transport object selected by `Link.__init__` together with the
constructor arguments it receives (`CommunicationTcp(packlen, timeout)` or
`CommunicationUdp(packlen, timeout)`).  Timeouts are carried opaquely. -/
inductive CommLine where
  | tcp (packlen : Nat) (timeout : Option PyFloat)
  | udp (packlen : Nat) (timeout : Option PyFloat)
deriving DecidableEq, Repr

/-- The protocol-dispatch portion of `Link.__init__`: the `protocol` property
setter first rejects anything other than `"TCP"`/`"UDP"`
(`ApiConnectionConfigError`), then the constructor builds
`CommunicationTcp(0x4000, timeout)` for TCP — explicitly ignoring the
configured `packlen` — and `CommunicationUdp(packlen, timeout)` for UDP.
(The trailing `NotImplementedError` branch of the source is unreachable
after the setter check and is kept as the error fallback.) -/
def Link.initLine (packlen : Nat) (protocol : String) (timeout : Option PyFloat) :
    Except String CommLine :=
  if protocol ≠ "TCP" ∧ protocol ≠ "UDP" then
    .error "ApiConnectionConfigError"
  else if protocol = "TCP" then
    .ok (.tcp 0x4000 timeout)
  else if protocol = "UDP" then
    .ok (.udp packlen timeout)
  else
    .error "NotImplementedError"

/-- Claim C9: with protocol `"TCP"` the transport is always constructed with
the fixed packet length `0x4000`, whatever `packlen` was configured; the
configured `packlen` reaches the transport only for protocol `"UDP"`. -/
theorem link_tcp_ignores_packlen :
    (∀ (packlen : Nat) (timeout : Option PyFloat),
       Link.initLine packlen "TCP" timeout = .ok (.tcp 0x4000 timeout)) ∧
    (∀ (packlen : Nat) (timeout : Option PyFloat),
       Link.initLine packlen "UDP" timeout = .ok (.udp packlen timeout)) :=
  ⟨fun _ _ => by simp [Link.initLine], fun _ _ => by simp [Link.initLine]⟩

/-! ## `hlinknet.py`: `CommunicationBase.receive` message-id ordering -/

/-- Outcome of draining the response queue in `CommunicationBase.receive`. -/
inductive ReceiveOutcome where
  /-- `return message`: the entry whose recorded id matches. -/
  | found (msg : List Nat)
  /-- an uncaught exception (`ConnectionError` on desync / `None` entry,
  `IndexError` on an entry shorter than two bytes). -/
  | fatal (e : PyErr)
  /-- the queue ran dry: the source calls `poll_response()` and blocks on
  the socket for more data. -/
  | needPoll
deriving DecidableEq, Repr

/-- `T32_API_KEEPALIVE` -/
def T32_API_KEEPALIVE : Nat := 0xFE

/-- `CommunicationBase.receive(message_id)` restricted to one pass over the
entries currently in `_response_queue` (`queue.get(block=False)` until
`queue.Empty`):  a `None` entry raises `ConnectionError`; an empty entry and
a keepalive entry (first byte `0xFE`) are skipped; otherwise byte 1 is the
recorded message id — lower than expected is skipped, equal is returned,
greater raises `ConnectionError`. -/
def receiveFromQueue (message_id : Nat) : List (Option (List Nat)) → ReceiveOutcome
  | [] => .needPoll
  | none :: _ => .fatal .connectionError
  | some msg :: rest =>
    match msg with
    | [] => receiveFromQueue message_id rest
    | b0 :: tail =>
      if b0 = T32_API_KEEPALIVE then receiveFromQueue message_id rest
      else
        match tail with
        | [] => .fatal .indexError
        | b1 :: _ =>
          if b1 < message_id then receiveFromQueue message_id rest
          else if b1 = message_id then .found msg
          else .fatal .connectionError

/-- A queue entry that reaches the id comparison: at least two bytes and not
a keepalive. -/
def goodMsg (s : List Nat) : Prop := 2 ≤ s.length ∧ s.headD 0 ≠ T32_API_KEEPALIVE

instance (s : List Nat) : Decidable (goodMsg s) := by
  unfold goodMsg; infer_instance

/-- The recorded message id of a queue entry: `message[1]`. -/
def recId (s : List Nat) : Nat := s.getD 1 0

/-- Claim C3: `receive` discards every queued entry whose recorded id is
lower than the expected id; the first entry whose id equals the expected id
is returned; the first entry whose id is greater raises a fatal
`ConnectionError`. -/
theorem receive_orders_message_ids (message_id : Nat)
    (stale : List (List Nat)) (m : List Nat) (rest : List (Option (List Nat)))
    (hstale : ∀ s ∈ stale, goodMsg s ∧ recId s < message_id)
    (hm : goodMsg m) :
    (recId m = message_id →
      receiveFromQueue message_id (stale.map some ++ some m :: rest) = .found m) ∧
    (message_id < recId m →
      receiveFromQueue message_id (stale.map some ++ some m :: rest) =
        .fatal .connectionError) := by
  induction stale with
  | nil =>
    obtain ⟨hlen, hhead⟩ := hm
    match m, hlen with
    | b0 :: b1 :: t, _ =>
      have hhead2 : b0 ≠ T32_API_KEEPALIVE := by simpa [List.headD] using hhead
      have hrec : recId (b0 :: b1 :: t) = b1 := by simp [recId]
      refine ⟨fun heq => ?_, fun hlt => ?_⟩
      · rw [hrec] at heq
        simp only [List.map_nil, List.nil_append, receiveFromQueue]
        rw [if_neg hhead2, if_neg (by omega), if_pos heq]
      · rw [hrec] at hlt
        simp only [List.map_nil, List.nil_append, receiveFromQueue]
        rw [if_neg hhead2, if_neg (by omega), if_neg (by omega)]
  | cons s ss ih =>
    obtain ⟨⟨hlen, hhead⟩, hid⟩ := hstale s (by simp)
    have ih2 := ih (fun x hx => hstale x (by simp [hx]))
    match s, hlen with
    | b0 :: b1 :: t, _ =>
      have hhead2 : b0 ≠ T32_API_KEEPALIVE := by simpa [List.headD] using hhead
      have hid2 : b1 < message_id := by simpa [recId] using hid
      simp only [List.map_cons, List.cons_append, receiveFromQueue]
      rw [if_neg hhead2, if_pos hid2]
      exact ih2

/-- Witness for claim C3: queued response entries with recorded ids
`[3, 3, 4, 6]` and expected id `4` — the first id-4 entry is returned. -/
theorem receive_orders_message_ids_witness :
    receiveFromQueue 4
      [some [1, 3], some [1, 3], some [1, 4, 171], some [1, 6]] = .found [1, 4, 171] :=
  (receive_orders_message_ids 4 [[1, 3], [1, 3]] [1, 4, 171] [some [1, 6]]
    (by decide) (by decide)).1 (by decide)

/-! ## `_library.py`: `Library.generic_api_call` envelope construction -/

/-- The byte-assembly part of `Library.generic_api_call` (the `send_data`
handed to `Link.transmit`).  `msgid` is the value returned by
`increment_message_id()`.  With `force_length` unset the length field is
`2 + len(payload)`; if that exceeds `0xFF` (or `force_16bit_length` is set)
the extended form `00 cmd sub msgid u16len payload pad` is used — after
adding 2 to the length field and rejecting lengths above `0xF000` with
`ApiProtocolTransmitError` — otherwise the compact form
`u8len cmd sub msgid payload pad`.  The payload is padded to even length;
`struct.pack("B", v)` overflow is `structError`. -/
def genericApiEnvelope (rapi_cmd opt_arg : Nat) (payload : List Nat) (msgid : Nat)
    (force_length : Option Nat) (force_16bit_length : Bool) : Except PyErr (List Nat) :=
  if rapi_cmd > 0xFF ∨ opt_arg > 0xFF ∨ msgid > 0xFF then .error .structError
  else
    let payload_length := payload.length
    let pad : List Nat := List.replicate (payload_length % 2) 0
    let msg_len := force_length.getD (2 + payload_length)
    if msg_len > 0xFF ∨ force_16bit_length then
      let msg_len2 := msg_len + 2
      if msg_len2 > 0xF000 then .error .structError
      else .ok (0 :: rapi_cmd :: opt_arg :: msgid :: (leBytes 2 msg_len2 ++ payload ++ pad))
    else
      .ok (msg_len :: rapi_cmd :: opt_arg :: msgid :: (payload ++ pad))

/-- `Link.increment_message_id` / `Link.get_message_id`: the message-id
counter is incremented and reported mod 255. -/
def incrementMessageId (message_id : Nat) : Nat × Nat :=
  (message_id + 1, (message_id + 1) % 255)

/-- Claim C6: a request with a 10-byte payload and command byte `0x74`
(subcommand 0) is transmitted in the compact envelope
`0x0C 0x74 0x00 msgid payload`; in general (with the default flags) the
compact form is chosen exactly when the length field `2 + len(payload)` fits
in `0xFF`, and the extended form (leading `0x00`, 16-bit length) otherwise. -/
theorem generic_api_call_envelope (rapi_cmd opt_arg msgid : Nat) (payload : List Nat)
    (hcmd : rapi_cmd ≤ 0xFF) (hopt : opt_arg ≤ 0xFF) (hmsg : msgid < 255) :
    (payload.length = 10 → rapi_cmd = 0x74 → opt_arg = 0 →
      genericApiEnvelope rapi_cmd opt_arg payload msgid none false =
        .ok (12 :: 0x74 :: 0 :: msgid :: payload)) ∧
    (2 + payload.length ≤ 0xFF →
      genericApiEnvelope rapi_cmd opt_arg payload msgid none false =
        .ok ((2 + payload.length) :: rapi_cmd :: opt_arg :: msgid ::
          (payload ++ List.replicate (payload.length % 2) 0))) ∧
    (0xFF < 2 + payload.length → 4 + payload.length ≤ 0xF000 →
      genericApiEnvelope rapi_cmd opt_arg payload msgid none false =
        .ok (0 :: rapi_cmd :: opt_arg :: msgid ::
          (leBytes 2 (4 + payload.length) ++ payload ++
            List.replicate (payload.length % 2) 0))) := by
  refine ⟨fun hlen hc ho => ?_, fun hfit => ?_, fun hbig hcap => ?_⟩
  · subst hc ho
    simp only [genericApiEnvelope, hlen]
    rw [if_neg (by omega), if_neg (by simp)]
    simp [hlen]
  · simp only [genericApiEnvelope, Option.getD]
    rw [if_neg (by omega), if_neg (by simp; omega)]
  · simp only [genericApiEnvelope, Option.getD]
    rw [if_neg (by omega), if_pos (Or.inl (by omega)), if_neg (by omega)]
    rw [show 2 + payload.length + 2 = 4 + payload.length by omega]

/-- Witness for claim C6: a concrete 10-byte payload, command `0x74`,
subcommand 0, message id 5. -/
theorem generic_api_call_envelope_witness :
    genericApiEnvelope 0x74 0 (List.replicate 10 7) 5 none false =
      .ok (12 :: 0x74 :: 0 :: 5 :: List.replicate 10 7) :=
  (generic_api_call_envelope 0x74 0 5 (List.replicate 10 7)
    (by decide) (by decide) (by decide)).1 (by simp) rfl rfl

/-! ## `hlinknet.py`: `CommunicationTcp` framing and reassembly -/

/-- `T32_NETTCP_RCL_RESP` -/
def RCL_RESP : Nat := 0x11

/-- `T32_NETTCP_RCL_NOTIFY` -/
def RCL_NOTIFY : Nat := 0x12

/-- `align_eight` from `common.py` (via `align_up(n, 8)`): the number of
bytes from `n` up to the next multiple of eight. -/
def align_eight (n : Nat) : Nat := if n % 8 ≠ 0 then 8 - n % 8 else 0

/-- The state of a `CommunicationTcp` object that the receive path touches:
the partial-frame reassembly buffer `socket_content` and the two FIFO
queues (represented as lists, new entries appended at the tail). -/
structure TcpState where
  socket_content : List Nat
  notify : List (List Nat)
  responses : List (List Nat)
deriving DecidableEq, Repr

/-- The frame layout produced by `CommunicationTcp.transmit` and consumed by
`extract_message`: 4-byte little-endian payload length, 4-byte little-endian
message type, payload, zero padding to the next 8-byte boundary. -/
def tcpFrame (message_type : Nat) (payload : List Nat) : List Nat :=
  leBytes 4 payload.length ++ leBytes 4 message_type ++ payload ++
    List.replicate (align_eight (payload.length + 4 + 4)) 0

/-- `CommunicationTcp.extract_message`: loop over `socket_content`; with
fewer than `HEADER_LEN = 8` buffered bytes the buffer is cleared and the
loop exits; otherwise the first 4 bytes give the payload length; if the full
message (`payload length + 8`) is buffered, its type selects the queue
(`RCL_NOTIFY`/`RCL_RESP`, anything else is a fatal `ConnectionError`), the
payload is enqueued and the buffer advances by the message length rounded up
to the 64-bit alignment; an incomplete message leaves the buffer intact. -/
def extract_message (content : List Nat) (notify responses : List (List Nat)) :
    Except PyErr TcpState :=
  if _h : 8 ≤ content.length then
    let message_payload_len := fromBytesLE (content.take 4)
    let message_len := message_payload_len + 8
    if message_len ≤ content.length then
      let message_type := fromBytesLE ((content.drop 4).take 4)
      let message_payload := (content.drop 8).take message_payload_len
      let message_len_stuffed := (message_len + 8 - 1) / 8 * 8
      let content2 := content.drop message_len_stuffed
      if message_type = RCL_NOTIFY then
        extract_message content2 (notify ++ [message_payload]) responses
      else if message_type = RCL_RESP then
        extract_message content2 notify (responses ++ [message_payload])
      else .error .connectionError
    else .ok ⟨content, notify, responses⟩
  else .ok ⟨[], notify, responses⟩
termination_by content.length
decreasing_by
  all_goals
    simp only [List.length_drop]
    omega

/-- `CommunicationTcp.poll_response`: append the bytes read from the socket
to `socket_content`, then run `extract_message`. -/
def poll_response (st : TcpState) (received : List Nat) : Except PyErr TcpState :=
  extract_message (st.socket_content ++ received) st.notify st.responses

theorem align_eight_eq (n : Nat) : align_eight n = (8 - n % 8) % 8 := by
  unfold align_eight; split <;> omega

theorem tcpFrame_length (t : Nat) (p : List Nat) :
    (tcpFrame t p).length = p.length + 8 + align_eight (p.length + 8) := by
  have h48 : p.length + 4 + 4 = p.length + 8 := by omega
  simp [tcpFrame, leBytes_length, List.length_append, List.length_replicate, h48]
  omega

theorem stuffed_eq_frame_length (L : Nat) :
    (L + 8 + 8 - 1) / 8 * 8 = L + 8 + align_eight (L + 8) := by
  rw [align_eight_eq]; omega

theorem tcpFrame_take_four (t : Nat) (p : List Nat) :
    (tcpFrame t p).take 4 = leBytes 4 p.length := by
  unfold tcpFrame
  simp only [List.append_assoc]
  rw [List.take_left' (leBytes_length 4 p.length)]

theorem tcpFrame_type_bytes (t : Nat) (p : List Nat) :
    ((tcpFrame t p).drop 4).take 4 = leBytes 4 t := by
  unfold tcpFrame
  simp only [List.append_assoc]
  rw [List.drop_left' (leBytes_length 4 p.length)]
  rw [List.take_left' (leBytes_length 4 t)]

theorem tcpFrame_payload_bytes (t : Nat) (p : List Nat) :
    ((tcpFrame t p).drop 8).take p.length = p := by
  unfold tcpFrame
  rw [show leBytes 4 p.length ++ leBytes 4 t ++ p ++
      List.replicate (align_eight (p.length + 4 + 4)) 0 =
      (leBytes 4 p.length ++ leBytes 4 t) ++
      (p ++ List.replicate (align_eight (p.length + 4 + 4)) 0) from by
    simp [List.append_assoc]]
  rw [List.drop_left' (by simp [leBytes_length])]
  rw [List.take_left' rfl]

/-- Running `extract_message` on exactly one complete well-formed frame:
the payload is dispatched once to the queue named by the message type and
the buffer is drained. -/
theorem extract_message_frame (t : Nat) (p : List Nat)
    (nq rq : List (List Nat))
    (hlen : p.length < 2 ^ 32) (htype : t = RCL_RESP ∨ t = RCL_NOTIFY) :
    extract_message (tcpFrame t p) nq rq =
      .ok ⟨[], nq ++ (if t = RCL_NOTIFY then [p] else []),
            rq ++ (if t = RCL_RESP then [p] else [])⟩ := by
  have hplen : fromBytesLE ((tcpFrame t p).take 4) = p.length := by
    rw [tcpFrame_take_four, fromBytesLE_leBytes, Nat.mod_eq_of_lt hlen]
  have htlt : t < 2 ^ 32 := by rcases htype with h | h <;> simp [h, RCL_RESP, RCL_NOTIFY]
  have hmtype : fromBytesLE (((tcpFrame t p).drop 4).take 4) = t := by
    rw [tcpFrame_type_bytes, fromBytesLE_leBytes, Nat.mod_eq_of_lt htlt]
  have hflen : (tcpFrame t p).length = p.length + 8 + align_eight (p.length + 8) :=
    tcpFrame_length t p
  have halign : align_eight (p.length + 8) < 8 := by rw [align_eight_eq]; omega
  rw [extract_message]
  rw [dif_pos (by omega)]
  simp only [hplen, hmtype, tcpFrame_payload_bytes]
  rw [if_pos (by omega), stuffed_eq_frame_length]
  rw [show (tcpFrame t p).drop (p.length + 8 + align_eight (p.length + 8)) = [] from by
    apply List.drop_eq_nil_of_le; omega]
  rcases htype with h | h <;> subst h
  · rw [if_neg (by simp [RCL_RESP, RCL_NOTIFY]), if_pos rfl]
    rw [extract_message, dif_neg (by simp)]
    simp [RCL_RESP, RCL_NOTIFY]
  · rw [if_pos rfl]
    rw [extract_message, dif_neg (by simp)]
    simp [RCL_RESP, RCL_NOTIFY]

theorem take_take_of_le {α : Type} (l : List α) {a b : Nat} (h : a ≤ b) :
    (l.take b).take a = l.take a := by
  rw [List.take_take, Nat.min_eq_left h]

/-- Claim C2 (amended): a TCP frame split across two consecutive partial
socket reads reassembles into exactly one dispatched frame of the declared
message type, byte-identical to the unsplit delivery, **provided the first
read contains at least the 8-byte frame header** (the source clears the
buffer whenever fewer than 8 bytes are buffered, so shorter first reads
lose the frame — see the counterexample). -/
theorem tcp_frame_reassembly_split (t : Nat) (p : List Nat) (k : Nat)
    (hlen : p.length < 2 ^ 32) (htype : t = RCL_RESP ∨ t = RCL_NOTIFY)
    (hk8 : 8 ≤ k) (hklt : k < (tcpFrame t p).length) :
    (poll_response ⟨[], [], []⟩ ((tcpFrame t p).take k)).bind
        (fun st1 => poll_response st1 ((tcpFrame t p).drop k)) =
      .ok ⟨[], if t = RCL_NOTIFY then [p] else [],
            if t = RCL_RESP then [p] else []⟩ ∧
    poll_response ⟨[], [], []⟩ (tcpFrame t p) =
      .ok ⟨[], if t = RCL_NOTIFY then [p] else [],
            if t = RCL_RESP then [p] else []⟩ := by
  have hwhole : poll_response ⟨[], [], []⟩ (tcpFrame t p) =
      .ok ⟨[], if t = RCL_NOTIFY then [p] else [],
            if t = RCL_RESP then [p] else []⟩ := by
    unfold poll_response
    simp only [List.nil_append]
    rw [extract_message_frame t p [] [] hlen htype]
    simp
  refine ⟨?_, hwhole⟩
  have hflen : (tcpFrame t p).length = p.length + 8 + align_eight (p.length + 8) :=
    tcpFrame_length t p
  have halign : align_eight (p.length + 8) < 8 := by rw [align_eight_eq]; omega
  have hklen : ((tcpFrame t p).take k).length = k := by
    simp [List.length_take]; omega
  have hplen : fromBytesLE (((tcpFrame t p).take k).take 4) = p.length := by
    rw [take_take_of_le _ (by omega), tcpFrame_take_four, fromBytesLE_leBytes,
      Nat.mod_eq_of_lt hlen]
  by_cases hcase : p.length + 8 ≤ k
  · -- the whole message is inside the first read; the second read is padding
    have htlt : t < 2 ^ 32 := by
      rcases htype with h | h <;> simp [h, RCL_RESP, RCL_NOTIFY]
    have hmtype : fromBytesLE ((((tcpFrame t p).take k).drop 4).take 4) = t := by
      rw [List.drop_take, take_take_of_le _ (by omega), tcpFrame_type_bytes,
        fromBytesLE_leBytes, Nat.mod_eq_of_lt htlt]
    have hpay : (((tcpFrame t p).take k).drop 8).take p.length = p := by
      rw [List.drop_take, take_take_of_le _ (by omega), tcpFrame_payload_bytes]
    have hdrop2 : ((tcpFrame t p).take k).drop
        (p.length + 8 + align_eight (p.length + 8)) = [] := by
      apply List.drop_eq_nil_of_le
      simp [List.length_take]; omega
    have hfirst : extract_message ((tcpFrame t p).take k) [] [] =
        .ok ⟨[], if t = RCL_NOTIFY then [p] else [],
              if t = RCL_RESP then [p] else []⟩ := by
      rw [extract_message, dif_pos (by omega)]
      simp only [hplen, hmtype, hpay]
      rw [if_pos (by omega), stuffed_eq_frame_length, hdrop2]
      rcases htype with h | h <;> subst h
      · rw [if_neg (by simp [RCL_RESP, RCL_NOTIFY]), if_pos rfl]
        rw [extract_message, dif_neg (by simp)]
        simp [RCL_RESP, RCL_NOTIFY]
      · rw [if_pos rfl]
        rw [extract_message, dif_neg (by simp)]
        simp [RCL_RESP, RCL_NOTIFY]
    unfold poll_response
    simp only [List.nil_append, hfirst, Except.bind]
    rw [extract_message, dif_neg (by simp [List.length_drop]; omega)]
  · -- header complete but message incomplete: the buffer is kept intact
    have hfirst : extract_message ((tcpFrame t p).take k) [] [] =
        .ok ⟨(tcpFrame t p).take k, [], []⟩ := by
      rw [extract_message, dif_pos (by omega)]
      simp only [hplen]
      rw [if_neg (by omega)]
    unfold poll_response
    simp only [List.nil_append, hfirst, Except.bind]
    rw [List.take_append_drop]
    rw [extract_message_frame t p [] [] hlen htype]
    simp

/-- Witness for claim C2 (amended): a response frame with payload
`[170, 187]` split after its 8-byte header. -/
theorem tcp_frame_reassembly_split_witness :
    (poll_response ⟨[], [], []⟩ ((tcpFrame RCL_RESP [170, 187]).take 8)).bind
        (fun st1 => poll_response st1 ((tcpFrame RCL_RESP [170, 187]).drop 8)) =
      .ok ⟨[], [], [[170, 187]]⟩ ∧
    poll_response ⟨[], [], []⟩ (tcpFrame RCL_RESP [170, 187]) =
      .ok ⟨[], [], [[170, 187]]⟩ := by
  have h := tcp_frame_reassembly_split RCL_RESP [170, 187] 8 (by decide)
    (Or.inl rfl) (by decide) (by decide)
  simpa [RCL_RESP, RCL_NOTIFY] using h

/-- Counterexample to claim C2 as stated: splitting the same response frame
after 1 byte (inside the 8-byte header) dispatches nothing — the first
`poll_response` throws the buffered byte away, and the second misparses the
remainder — whereas the unsplit delivery dispatches the frame. -/
theorem tcp_split_in_header_drops_frame :
    (poll_response ⟨[], [], []⟩ ((tcpFrame RCL_RESP [170, 187]).take 1)).bind
        (fun st1 => poll_response st1 ((tcpFrame RCL_RESP [170, 187]).drop 1)) =
      .ok ⟨(tcpFrame RCL_RESP [170, 187]).drop 1, [], []⟩ ∧
    poll_response ⟨[], [], []⟩ (tcpFrame RCL_RESP [170, 187]) =
      .ok ⟨[], [], [[170, 187]]⟩ ∧
    (poll_response ⟨[], [], []⟩ ((tcpFrame RCL_RESP [170, 187]).take 1)).bind
        (fun st1 => poll_response st1 ((tcpFrame RCL_RESP [170, 187]).drop 1)) ≠
      poll_response ⟨[], [], []⟩ (tcpFrame RCL_RESP [170, 187]) := by
  have hframe : tcpFrame RCL_RESP [170, 187] =
      [2, 0, 0, 0, 17, 0, 0, 0, 170, 187, 0, 0, 0, 0, 0, 0] := by decide
  have hwhole : poll_response ⟨[], [], []⟩ (tcpFrame RCL_RESP [170, 187]) =
      .ok ⟨[], [], [[170, 187]]⟩ := by
    unfold poll_response
    simp only [List.nil_append]
    rw [extract_message_frame RCL_RESP [170, 187] [] [] (by decide) (Or.inl rfl)]
    simp [RCL_RESP, RCL_NOTIFY]
  have hfirst : extract_message ((tcpFrame RCL_RESP [170, 187]).take 1) [] [] =
      .ok ⟨[], [], []⟩ := by
    rw [extract_message, dif_neg (by rw [hframe]; decide)]
  have hsecond : extract_message ((tcpFrame RCL_RESP [170, 187]).drop 1) [] [] =
      .ok ⟨(tcpFrame RCL_RESP [170, 187]).drop 1, [], []⟩ := by
    rw [extract_message, dif_pos (by rw [hframe]; decide)]
    rw [if_neg (by rw [hframe]; decide)]
  have hsplit : (poll_response ⟨[], [], []⟩ ((tcpFrame RCL_RESP [170, 187]).take 1)).bind
      (fun st1 => poll_response st1 ((tcpFrame RCL_RESP [170, 187]).drop 1)) =
      .ok ⟨(tcpFrame RCL_RESP [170, 187]).drop 1, [], []⟩ := by
    unfold poll_response
    simp only [List.nil_append, hfirst, Except.bind, hsecond]
  refine ⟨hsplit, hwhole, ?_⟩
  rw [hsplit, hwhole, hframe]
  intro hEq
  injection hEq with h1
  injection h1 with hs hn hr
  exact absurd hr (by decide)

/-! ## `hlinknet.py`: `CommunicationUdp.sync` retry recursion -/

/-- `T32_API_SYNCBACKREQ` -/
def T32_API_SYNCBACKREQ : Nat := 0x05

/-- `T32_API_SYNCACKN` -/
def T32_API_SYNCACKN : Nat := 0x12

/-- `MAGIC_PATTERN = b"TRACE32\0"` -/
def MAGIC_PATTERN : List Nat := [84, 82, 65, 67, 69, 51, 50, 0]

/-- Result of a `CommunicationUdp.sync` run. -/
inductive SyncResult where
  /-- `sync` returned `True`. -/
  | success
  /-- `ApiConnectionSyncError` was raised. -/
  | syncError
  /-- the run is still going after the given amount of fuel (each unit of
  fuel pays for one loop iteration / recursive call). -/
  | outOfFuel
deriving DecidableEq, Repr

/-- `CommunicationUdp.sync(maxTries)`, fuel-indexed.  `recv n` is the `n`-th
datagram `recvfrom` delivers over the whole run.  Per iteration of
`for attempt in range(maxTries)`: a 16-byte datagram with first byte
`T32_API_SYNCBACKREQ` triggers `success = self.sync(maxTries - attempt)`
followed by `break` (a successful or failed recursion propagates; the
sync-back send after the loop is skipped since `success` is set); a 16-byte
`T32_API_SYNCACKN` datagram whose bytes 8.. equal the magic pattern breaks
with `success = False`, after which the sync-back datagram is sent and
`True` returned; anything else continues with the next attempt; running
out of attempts raises `ApiConnectionSyncError` (the `for`/`else` branch).
The `str(recv_data[8:]).startswith(str(MAGIC_PATTERN))` comparison of the
source is, for the 16-byte datagrams admitted by the guard, equivalent to
the byte equality used here (`repr` is injective on 8-byte strings). -/
def syncLoop (recv : Nat → List Nat) :
    Nat → Nat → Nat → Nat → SyncResult × Nat
  | 0, idx, _, _ => (.outOfFuel, idx)
  | fuel + 1, idx, maxTries, attempt =>
    if maxTries ≤ attempt then (.syncError, idx)
    else
      let d := recv idx
      if d.headD 0 = T32_API_SYNCBACKREQ ∧ d.length = 16 then
        match syncLoop recv fuel (idx + 1) (maxTries - attempt) 0 with
        | (.success, j) => (.success, j)
        | r => r
      else if d.headD 0 = T32_API_SYNCACKN ∧ d.length = 16 ∧
          d.drop 8 = MAGIC_PATTERN then
        (.success, idx + 1)
      else
        syncLoop recv fuel (idx + 1) maxTries (attempt + 1)

/-- A 16-byte sync-back-request datagram (first byte `T32_API_SYNCBACKREQ`). -/
def syncBackDatagram : List Nat := 5 :: List.replicate 15 0

/-- Claim C8 evaluated on the failing input: against a peer that answers
every receive with a sync-back-request datagram, `sync` recurses with the
budget `maxTries - attempt` at `attempt = 0`, i.e. an *undiminished* budget,
so for every `maxTries ≥ 1` and every amount of fuel the run is still going:
the attempt budget never bounds the total number of attempts. -/
theorem sync_unbounded_on_syncback (fuel maxTries idx : Nat) (h : 1 ≤ maxTries) :
    (syncLoop (fun _ => syncBackDatagram) fuel idx maxTries 0).1 = .outOfFuel := by
  induction fuel generalizing idx with
  | zero => rfl
  | succ f ih =>
    rw [syncLoop]
    rw [if_neg (by omega)]
    rw [if_pos (by constructor <;> simp [syncBackDatagram, T32_API_SYNCBACKREQ])]
    have hrec := ih (idx + 1)
    rcases hres : syncLoop (fun _ => syncBackDatagram) f (idx + 1) (maxTries - 0) 0
      with ⟨res, j⟩
    simp only [Nat.sub_zero] at hres
    rw [hres] at hrec
    simp only at hrec
    subst hrec
    rfl

/-- Witness for claim C8 at the default `maxTries = 20` with fuel 5. -/
theorem sync_unbounded_on_syncback_witness :
    (syncLoop (fun _ => syncBackDatagram) 5 0 20 0).1 = .outOfFuel :=
  sync_unbounded_on_syncback 5 20 0 (by decide)

/-! ## `_address.py`: the `Address` object codec -/

/-- The attribute state of `Address` (`_rc/_address.py`): optional
access-code string (carried as its encoded bytes; access codes are ASCII)
and optional integer value.  The `conn` back-reference is omitted. -/
structure Address where
  access : Option (List Nat)
  value : Option Int
deriving DecidableEq, Repr

/-- Python `str.strip(c)`: remove every leading and trailing occurrence of
the character `c`. -/
def stripChar (c : Nat) (l : List Nat) : List Nat :=
  ((l.dropWhile (fun x => x = c)).reverse.dropWhile (fun x => x = c)).reverse

/-- `Address.parse_access`: decode, strip NUL bytes, then strip colons. -/
def parse_access (b : List Nat) : List Nat := stripChar 58 (stripChar 0 b)

/-- `Address.serialize(address_offset, width=...)`: emits the fixed 64-bit
address type (2 bytes `03 00`), the 8-byte little-endian value plus offset
(`None` raises `TypeError` at `self.value + address_offset`), an optional
`AC` field (length `len(access)+1` rounded up to even, NUL-padded), an
optional `WI` field, and the `XX` end marker.  Returns `(len(result),
result)` like the source. -/
def Address.serialize (a : Address) (address_offset : Int) (width : Option Nat) :
    Except PyErr (Nat × List Nat) := do
  match a.value with
  | none => .error .typeError
  | some v =>
    let tmp ← int2bytearray (v + address_offset) 8
    let acPart : List Nat ← match a.access with
      | none => pure []
      | some s =>
        let access_len := (s.length + 1) + (s.length + 1) % 2
        if access_len < 0x10000 then
          pure ([65, 67] ++ leBytes 2 access_len ++
            (s ++ List.replicate (access_len - s.length) 0))
        else .error .structError
    let wiPart : List Nat ← match width with
      | none => pure []
      | some w =>
        if w < 0x10000 then pure ([87, 73] ++ leBytes 2 w)
        else .error .structError
    let result := [3, 0] ++ tmp ++ acPart ++ wiPart ++ [88, 88]
    return (result.length, result)

/-- The tagged-parameter loop of `Address.deserialize`, on the buffer
remainder after the fixed address header.  `consumed` tracks `read_ptr`,
`acc` tracks whether the local `addr_access` has been assigned.  The core,
space-id, attribute and MAU fields are decoded into locals the source never
returns, so this model only advances past them by their field widths.
An unknown tag raises `ValueError`. -/
def addressFieldLoop : List Nat → Nat → Option (List Nat) →
    Except PyErr (Nat × Option (List Nat))
  | [], consumed, acc => .ok (consumed, acc)
  | x :: xs, consumed, acc =>
    let pid := (x :: xs).take 2
    if pid = [65, 67] then  -- "AC"
      let addr_access_len := fromBytesLE (((x :: xs).drop 2).take 2)
      let v := ((x :: xs).drop 4).take addr_access_len
      addressFieldLoop ((x :: xs).drop (4 + addr_access_len))
        (consumed + 4 + addr_access_len) (some (parse_access v))
    else if pid = [87, 73] then  -- "WI"
      addressFieldLoop ((x :: xs).drop 4) (consumed + 4) acc
    else if pid = [67, 79] then  -- "CO"
      addressFieldLoop ((x :: xs).drop 4) (consumed + 4) acc
    else if pid = [83, 73] ∨ pid = [73, 77] then  -- "SI" / "IM"
      addressFieldLoop ((x :: xs).drop 6) (consumed + 6) acc
    else if pid = [65, 84] then  -- "AT"
      addressFieldLoop ((x :: xs).drop 6) (consumed + 6) acc
    else if pid = [77, 85] then  -- "MU"
      addressFieldLoop ((x :: xs).drop 4) (consumed + 4) acc
    else if pid = [84, 85] then  -- "TU"
      addressFieldLoop ((x :: xs).drop 4) (consumed + 4) acc
    else if pid = [88, 88] then  -- "XX": advance past the marker and break
      .ok (consumed + 2, acc)
    else .error .valueError
termination_by rem _ _ => rem.length
decreasing_by
  all_goals
    simp only [List.length_drop, List.length_cons]
    omega

/-- `Address.deserialize`: reads the 2-byte address type (`A32` reads a
4-byte value, `A64` an 8-byte value, anything else raises `ValueError`),
then the tagged-parameter loop; finally constructs
`cls(conn, access=addr_access, value=addr_value)` — which raises
`UnboundLocalError` when no `AC` field ever assigned the local
`addr_access`. -/
def Address.deserialize (buf : List Nat) : Except PyErr (Nat × Address) := do
  let addr_type := fromBytesLE (buf.take 2)
  if addr_type = 2 then
    let addr_value := fromBytesLE ((buf.drop 2).take 4)
    let (consumed, acc) ← addressFieldLoop (buf.drop 6) 6 none
    match acc with
    | none => .error .unboundLocal
    | some s => .ok (consumed, ⟨some s, some (addr_value : Int)⟩)
  else if addr_type = 3 then
    let addr_value := fromBytesLE ((buf.drop 2).take 8)
    let (consumed, acc) ← addressFieldLoop (buf.drop 10) 10 none
    match acc with
    | none => .error .unboundLocal
    | some s => .ok (consumed, ⟨some s, some (addr_value : Int)⟩)
  else .error .valueError

/-- `deserialize(serialize(x))` for an `Address`. -/
def addressRoundtrip (a : Address) : Except PyErr Address := do
  let (_, bytes) ← a.serialize 0 none
  let (_, a2) ← Address.deserialize bytes
  return a2

/-- Claim C1 evaluated at the failing input: an `Address` with no access
code (spec section 8 explicitly includes addresses without an access code)
serializes fine, but deserializing those bytes raises `UnboundLocalError`
instead of returning an equal `Address`, because the local `addr_access` is
only assigned when an `AC` field is present. -/
theorem address_roundtrip_unbound_local :
    addressRoundtrip ⟨none, some 0x1000⟩ = .error .unboundLocal := by
  have hser : Address.serialize ⟨none, some 0x1000⟩ 0 none =
      .ok (12, [3, 0, 0, 16, 0, 0, 0, 0, 0, 0, 88, 88]) := by decide
  have hloop : addressFieldLoop [88, 88] 10 none = .ok (12, none) := by
    simp [addressFieldLoop]
  have hdes : Address.deserialize [3, 0, 0, 16, 0, 0, 0, 0, 0, 0, 88, 88] =
      .error .unboundLocal := by
    unfold Address.deserialize
    rw [show fromBytesLE (List.take 2 [3, 0, 0, 16, 0, 0, 0, 0, 0, 0, 88, 88]) = 3
      from by decide]
    rw [show List.drop 10 [(3 : Nat), 0, 0, 16, 0, 0, 0, 0, 0, 0, 88, 88] = [88, 88]
      from by decide]
    simp [hloop]
    rfl
  unfold addressRoundtrip
  rw [hser]
  show Prod.snd <$> Address.deserialize [3, 0, 0, 16, 0, 0, 0, 0, 0, 0, 88, 88] =
    .error .unboundLocal
  rw [hdes]
  rfl

/-! ## `_memory_bundle.py`: `MemoryAccessBundle` -/

/-- `_EMU_CBMAXDATASIZE` -/
def EMU_CBMAXDATASIZE : Nat := 0x3C00

/-- One access of a `MemoryAccessBundle`: `MemoryReadAccess(address, length,
width)`, `MemoryWriteAccess(address, data, width)` or
`MemoryReadWriteAccess(address, data, mask, width)`.  The `width` attribute
is carried but — like in the source's `serialize` methods, which always
call `address.serialize(width=1)` — never consulted during serialization. -/
inductive MemoryAccess where
  | read (address : Address) (length : Nat) (width : Option Nat)
  | write (address : Address) (data : List Nat) (width : Option Nat)
  | readwrite (address : Address) (data mask : List Nat) (width : Option Nat)
deriving DecidableEq, Repr

/-- `MemoryReadAccess.serialize` / `MemoryWriteAccess.serialize` /
`MemoryReadWriteAccess.serialize`: 2-byte bundle type, 2-byte length,
`address.serialize(width=1)` bytes, then (for writes) the data padded to
even length, or (for read-modify-writes, whose `__post_init__` asserts
`len(data) == len(mask)`) data followed by mask. -/
def MemoryAccess.serialize : MemoryAccess → Except PyErr (List Nat)
  | .read a len _ => do
    if len < 0x10000 then
      let (_, ab) ← a.serialize 0 (some 1)
      .ok (leBytes 2 1 ++ leBytes 2 len ++ ab)
    else .error .structError
  | .write a data _ => do
    if data.length < 0x10000 then
      let (_, ab) ← a.serialize 0 (some 1)
      .ok (leBytes 2 0 ++ leBytes 2 data.length ++ ab ++ data ++
        List.replicate (data.length % 2) 0)
    else .error .structError
  | .readwrite a data mask _ => do
    if data.length = mask.length ∧ data.length < 0x10000 then
      let (_, ab) ← a.serialize 0 (some 1)
      .ok (leBytes 2 2 ++ leBytes 2 data.length ++ ab ++ data ++ mask)
    else .error .structError

/-- The `for access in self.access_list: data += access.serialize()` loop. -/
def serializeAccesses : List MemoryAccess → Except PyErr (List Nat)
  | [] => .ok []
  | a :: rest => do
    let b ← a.serialize
    let r ← serializeAccesses rest
    .ok (b ++ r)

/-- `MemoryAccessBundle.serialize`: 2-byte length placeholder, 2-byte access
count, the serialized accesses, the `XX` end marker; then
`struct.pack_into("<H", data, 0, len(data))` patches the first two bytes
(`struct.error` when the total exceeds `0xFFFF`), and finally a total above
`_EMU_CBMAXDATASIZE` raises
`NotImplementedError("splitting into multiple bundles not yet implemented")`. -/
def MemoryAccessBundle.serialize (l : List MemoryAccess) :
    Except PyErr (List Nat) := do
  if l.length < 0x10000 then
    let body ← serializeAccesses l
    let data := leBytes 2 0 ++ leBytes 2 l.length ++ body ++ [88, 88]
    if data.length < 0x10000 then
      let data2 := leBytes 2 data.length ++ data.drop 2
      if EMU_CBMAXDATASIZE < data2.length then .error .notImplementedError
      else .ok data2
    else .error .structError
  else .error .structError

/-- `Library.t32_transfermemorybundleobj`, up to the transmit boundary:
`bundle.serialize()` runs first; only on success is the resulting buffer
handed to `generic_api_call` (which transmits it).  The second component
lists the payloads that reach the transmit path. -/
def t32_transfermemorybundleobj (l : List MemoryAccess) :
    Except PyErr (List Nat) × List (List Nat) :=
  match MemoryAccessBundle.serialize l with
  | .error e => (.error e, [])
  | .ok tx => (.ok tx, [tx])

theorem ok_bind {ε α β : Type} (a : α) (f : α → Except ε β) :
    (Except.ok a : Except ε α) >>= f = f a := rfl

theorem serializeAccesses_length_le (l : List MemoryAccess) (body : List Nat) :
    (leBytes 2 0 ++ leBytes 2 l.length ++ body ++ [88, 88]).length =
      body.length + 6 := by
  simp [leBytes_length]
  omega

/-- Shared helper: any bundle whose serialized form lands strictly above
`0x3C00` bytes (and within the 16-bit length patch) fails with
`NotImplementedError` before any transmit. -/
theorem memory_bundle_too_large (l : List MemoryAccess) (body : List Nat)
    (hcount : l.length < 0x10000)
    (hbody : serializeAccesses l = .ok body)
    (hover : EMU_CBMAXDATASIZE < body.length + 6)
    (hfit : body.length + 6 < 0x10000) :
    MemoryAccessBundle.serialize l = .error .notImplementedError ∧
    t32_transfermemorybundleobj l = (.error .notImplementedError, []) := by
  have hdlen : (leBytes 2 0 ++ leBytes 2 l.length ++ body ++ [88, 88]).length =
      body.length + 6 := serializeAccesses_length_le l body
  have hover2 : 15360 < body.length + 6 := hover
  have hser : MemoryAccessBundle.serialize l = .error .notImplementedError := by
    unfold MemoryAccessBundle.serialize
    rw [if_pos hcount, hbody]
    simp only [ok_bind]
    rw [if_pos (by simp [leBytes_length]; omega)]
    rw [if_pos (by simp [leBytes_length, List.length_drop, EMU_CBMAXDATASIZE]; omega)]
  exact ⟨hser, by unfold t32_transfermemorybundleobj; rw [hser]⟩

/-- A single write access whose data alone fills the maximum payload size:
`MemoryWriteAccess(Address(value=0x1000), bytes(0x3C00), width=None)`. -/
def bigWriteAccess : MemoryAccess :=
  .write ⟨none, some 0x1000⟩ (List.replicate 0x3C00 0) none

/-- The serialized form of `bigWriteAccess`: type 0, 2-byte length `0x3C00`,
the 16-byte address record (64-bit type, value, `WI` 1, `XX`), the data. -/
def bigWriteBytes : List Nat :=
  leBytes 2 0 ++ leBytes 2 15360 ++
    [3, 0, 0, 16, 0, 0, 0, 0, 0, 0, 87, 73, 1, 0, 88, 88] ++
    List.replicate 15360 0

theorem bigWrite_serializeAccesses :
    serializeAccesses [bigWriteAccess] = .ok bigWriteBytes := by
  have haddr : Address.serialize ⟨none, some 0x1000⟩ 0 (some 1) =
      .ok (16, [3, 0, 0, 16, 0, 0, 0, 0, 0, 0, 87, 73, 1, 0, 88, 88]) := by decide
  have hb : MemoryAccess.serialize bigWriteAccess = .ok bigWriteBytes := by
    unfold bigWriteAccess
    simp only [MemoryAccess.serialize]
    rw [if_pos (by rw [List.length_replicate]; norm_num)]
    rw [haddr]
    simp only [ok_bind, List.length_replicate]
    rw [show (15360 % 2 : Nat) = 0 from rfl]
    rw [List.replicate_zero, List.append_nil]
    unfold bigWriteBytes
    rfl
  simp only [serializeAccesses, hb, ok_bind]
  rw [List.append_nil]

theorem bigWriteBytes_length : bigWriteBytes.length = 15380 := by
  unfold bigWriteBytes
  rw [List.length_append, List.length_append, List.length_append,
    leBytes_length, leBytes_length, List.length_replicate]
  rw [show ([3, 0, 0, 16, 0, 0, 0, 0, 0, 0, 87, 73, 1, 0, 88, 88] : List Nat).length = 16
    from by decide]

/-- Claim C4 (amended): a memory-access bundle whose serialized form
(length prefix, count, serialized accesses, `XX` marker) exceeds the
maximum payload size of `0x3C00` bytes (while still fitting the 16-bit
length prefix) fails deterministically — with `NotImplementedError`, the
only over-size exception the source has, not a `BundleTooLargeError` —
and the failure occurs before any transmit call. -/
theorem memory_bundle_size_guard (l : List MemoryAccess) (body : List Nat)
    (hcount : l.length < 0x10000)
    (hbody : serializeAccesses l = .ok body)
    (hover : EMU_CBMAXDATASIZE < body.length + 6)
    (hfit : body.length + 6 < 0x10000) :
    MemoryAccessBundle.serialize l = .error .notImplementedError ∧
    t32_transfermemorybundleobj l = (.error .notImplementedError, []) :=
  memory_bundle_too_large l body hcount hbody hover hfit

/-- Witness for claim C4 (amended) at the concrete oversized bundle. -/
theorem memory_bundle_size_guard_witness :
    MemoryAccessBundle.serialize [bigWriteAccess] = .error .notImplementedError ∧
    t32_transfermemorybundleobj [bigWriteAccess] = (.error .notImplementedError, []) :=
  memory_bundle_size_guard [bigWriteAccess] bigWriteBytes (by simp)
    bigWrite_serializeAccesses
    (by rw [bigWriteBytes_length]; decide)
    (by rw [bigWriteBytes_length]; decide)

/-- Counterexample to claim C4 as stated: at a concrete oversized bundle the
exception raised is `NotImplementedError` — the codebase defines no
`BundleTooLargeError` at all (the `PyErr` enumeration of this development
mirrors the exceptions the modelled code can raise). -/
theorem memory_bundle_raises_notImplementedError :
    MemoryAccessBundle.serialize [bigWriteAccess] = .error .notImplementedError :=
  (memory_bundle_too_large [bigWriteAccess] bigWriteBytes (by simp)
    bigWrite_serializeAccesses
    (by rw [bigWriteBytes_length]; decide)
    (by rw [bigWriteBytes_length]; decide)).1

/-! ## `_directaccess.py`: `DirectAccessBundle` request chunking -/

/-- `DirectAccessShiftRawOptions` (four boolean flags). -/
structure DirectAccessShiftRawOptions where
  lasttms_one : Bool
  tms_one : Bool
  tdi_lasttdo : Bool
  tdi_one : Bool
deriving DecidableEq, Repr

/-- One low-level direct access: `DirectAccessShiftRaw`,
`DirectAccessGetInfo` or `DirectAccessSetInfo`. -/
inductive DirectAccess where
  | shiftRaw (num_bits : Nat) (tms tdi : Option (List Nat)) (tdo : Bool)
      (options : DirectAccessShiftRawOptions)
  | getInfo (instance_type inst info_id : Nat)
  | setInfo (instance_type inst info_id value : Nat)
deriving DecidableEq, Repr

/-- `DirectAccess._serialize_header(cmd, payload_bitlen)`: a 1-byte header
when the bit length fits in the low nibble, a 2-byte header below `0xFF`,
else `cmd`-nibble + `0xFF` + 4-byte little-endian bit length. -/
def serializeDaHeader (cmd payload_bitlen : Nat) : List Nat :=
  if payload_bitlen < 0x0F then [(cmd <<< 4) ||| payload_bitlen]
  else if payload_bitlen < 0xFF then [(cmd <<< 4) ||| 0x0F, payload_bitlen]
  else [(cmd <<< 4) ||| 0x0F, 0xFF] ++ leBytes 4 payload_bitlen

/-- The `options` bitmask of `DirectAccessShiftRaw._serialize_payload`.
`if self.tms:` tests Python truthiness, so `None` and the empty byte string
both count as absent. -/
def shiftRawOptionBits (tms tdi : Option (List Nat)) (tdo : Bool)
    (o : DirectAccessShiftRawOptions) : Nat :=
  (if tms.getD [] ≠ [] then 0x01 else 0) |||
  (if tdi.getD [] ≠ [] then 0x02 else 0) |||
  (if tdo then 0x04 else 0) |||
  (if o.lasttms_one then 0x08 else 0) |||
  (if o.tms_one then 0x10 else 0) |||
  (if o.tdi_lasttdo then 0x20 else 0) |||
  (if o.tdi_one then 0x40 else 0)

/-- `DirectAccessShiftRaw._serialize_payload`: `0x90 0x00`, 2-byte options,
4-byte `num_bits`, the TMS pattern if truthy, the TDI pattern if truthy,
and — when both `tms` and `tdi` are `None` but TDO capture is requested —
`(num_bits + 7) // 8` zero bytes of fake payload. -/
def shiftRawPayload (num_bits : Nat) (tms tdi : Option (List Nat)) (tdo : Bool)
    (o : DirectAccessShiftRawOptions) : List Nat :=
  [0x90, 0x00] ++ leBytes 2 (shiftRawOptionBits tms tdi tdo o) ++
    leBytes 4 num_bits ++
    (if tms.getD [] ≠ [] then tms.getD [] else []) ++
    (if tdi.getD [] ≠ [] then tdi.getD [] else []) ++
    (if tms = none ∧ tdi = none ∧ tdo then List.replicate ((num_bits + 7) / 8) 0
     else [])

/-- `DirectAccess._serialize` per access kind.  `shiftRaw`: command 12 with
the out-bits flag always set and the in-bits flag iff TDO is captured
(`num_bits.to_bytes(4)` raises `OverflowError` above 32 bits).  `getInfo`
(command 3) and `setInfo` (command 2): `FF FF FF FF`, `<BHH>` instance
type / instance / info id, and for `setInfo` a `<L>` value, with
`struct.error` on overflow. -/
def DirectAccess._serialize : DirectAccess → Except PyErr (List Nat)
  | .shiftRaw num_bits tms tdi tdo o =>
    if num_bits < 2 ^ 32 then
      let cmd := (12 ||| 2) ||| (if tdo then 1 else 0)
      let payload := shiftRawPayload num_bits tms tdi tdo o
      .ok (serializeDaHeader cmd (payload.length * 8) ++ payload)
    else .error .overflowError
  | .getInfo instance_type inst info_id =>
    if instance_type < 0x100 ∧ inst < 0x10000 ∧ info_id < 0x10000 then
      let payload := [255, 255, 255, 255] ++
        [instance_type] ++ leBytes 2 inst ++ leBytes 2 info_id
      .ok (serializeDaHeader 3 (payload.length * 8) ++ payload)
    else .error .structError
  | .setInfo instance_type inst info_id value =>
    if instance_type < 0x100 ∧ inst < 0x10000 ∧ info_id < 0x10000 ∧
        value < 2 ^ 32 then
      let payload := [255, 255, 255, 255] ++
        [instance_type] ++ leBytes 2 inst ++ leBytes 2 info_id ++ leBytes 4 value
      .ok (serializeDaHeader 2 (payload.length * 8) ++ payload)
    else .error .structError

/-- The loop of `DirectAccessBundle._get_requests`: serialize each access;
an access above `_EMU_CBMAXDATASIZE - 1` bytes raises `DirectAccessError`;
when appending the next access would push the current request payload above
`_EMU_CBMAXDATASIZE - 1`, the request is closed with the hold flag `0x01`
and emitted, and a fresh request starts with this access; the final request
is closed with `0x00` (release) or `0x01` (hold).  `payload` is the current
request payload, `acc` the emitted requests. -/
def getRequestsGo (release_debug_port : Bool) :
    List DirectAccess → List Nat → List (List Nat) →
    Except PyErr (List (List Nat))
  | [], payload, acc =>
    .ok (acc ++ [payload ++ [if release_debug_port then 0 else 1]])
  | a :: rest, payload, acc => do
    let tmp ← a._serialize
    if EMU_CBMAXDATASIZE - 1 < tmp.length then .error .directAccessError
    else if EMU_CBMAXDATASIZE - 1 < payload.length + tmp.length then
      getRequestsGo release_debug_port rest tmp (acc ++ [payload ++ [1]])
    else
      getRequestsGo release_debug_port rest (payload ++ tmp) acc

/-- `DirectAccessBundle._get_requests(release_debug_port)`: the sequence of
wire-request payloads the generator yields. -/
def getRequests (accesses : List DirectAccess) (release_debug_port : Bool) :
    Except PyErr (List (List Nat)) :=
  getRequestsGo release_debug_port accesses [] []

theorem getRequestsGo_nil (r : Bool) (payload : List Nat) (acc : List (List Nat)) :
    getRequestsGo r [] payload acc =
      .ok (acc ++ [payload ++ [if r then 0 else 1]]) := rfl

theorem getRequestsGo_cons (r : Bool) (a : DirectAccess) (rest : List DirectAccess)
    (payload : List Nat) (acc : List (List Nat)) (b : List Nat)
    (hb : a._serialize = .ok b) :
    getRequestsGo r (a :: rest) payload acc =
      if EMU_CBMAXDATASIZE - 1 < b.length then .error .directAccessError
      else if EMU_CBMAXDATASIZE - 1 < payload.length + b.length then
        getRequestsGo r rest b (acc ++ [payload ++ [1]])
      else getRequestsGo r rest (payload ++ b) acc := by
  simp only [getRequestsGo, hb, ok_bind]

theorem getRequestsGo_spec (release : Bool) (accesses : List DirectAccess)
    (payload : List Nat) (acc : List (List Nat))
    (h : ∀ a ∈ accesses, ∃ b, a._serialize = .ok b ∧
      b.length ≤ EMU_CBMAXDATASIZE - 1)
    (hpay : payload.length ≤ EMU_CBMAXDATASIZE - 1)
    (hacc : ∀ r ∈ acc, r ≠ [] ∧ r.length ≤ EMU_CBMAXDATASIZE ∧
      r.getLast? = some 1) :
    ∃ reqs, getRequestsGo release accesses payload acc = .ok reqs ∧
      acc.length < reqs.length ∧
      (∀ r ∈ reqs, r ≠ [] ∧ r.length ≤ EMU_CBMAXDATASIZE) ∧
      (∀ r ∈ reqs.dropLast, r.getLast? = some 1) ∧
      reqs.getLast?.bind List.getLast? =
        some (if release then 0 else 1) := by
  induction accesses generalizing payload acc with
  | nil =>
    refine ⟨acc ++ [payload ++ [if release then 0 else 1]], rfl, by simp, ?_, ?_, ?_⟩
    · intro r hr
      rcases List.mem_append.mp hr with hr | hr
      · exact ⟨(hacc r hr).1, (hacc r hr).2.1⟩
      · rcases List.mem_singleton.mp hr with rfl
        refine ⟨by simp, ?_⟩
        have : EMU_CBMAXDATASIZE - 1 < EMU_CBMAXDATASIZE := by decide
        simp [List.length_append]
        omega
    · intro r hr
      rw [List.dropLast_concat] at hr
      exact (hacc r hr).2.2
    · rw [List.getLast?_concat]
      simp [List.getLast?_concat]
  | cons a rest ih =>
    obtain ⟨b, hb, hble⟩ := h a (by simp)
    have hrest : ∀ x ∈ rest, ∃ c, x._serialize = .ok c ∧
        c.length ≤ EMU_CBMAXDATASIZE - 1 := fun x hx => h x (by simp [hx])
    simp only [getRequestsGo, hb, ok_bind]
    rw [if_neg (by omega)]
    by_cases hsplit : EMU_CBMAXDATASIZE - 1 < payload.length + b.length
    · rw [if_pos hsplit]
      obtain ⟨reqs, hres, hlt, hall, hflags, hlast⟩ :=
        ih b (acc ++ [payload ++ [1]]) hrest hble (by
          intro r hr
          rcases List.mem_append.mp hr with hr | hr
          · exact hacc r hr
          · rcases List.mem_singleton.mp hr with rfl
            refine ⟨by simp, ?_, by rw [List.getLast?_concat]⟩
            have : EMU_CBMAXDATASIZE - 1 < EMU_CBMAXDATASIZE := by decide
            simp [List.length_append]
            omega)
      refine ⟨reqs, hres, ?_, hall, hflags, hlast⟩
      simp at hlt
      omega
    · rw [if_neg hsplit]
      exact ih (payload ++ b) acc hrest (by simp only [List.length_append]; omega) hacc

/-- Claim C5 (amended): a direct-access bundle whose accesses each fit
individually is split greedily — the current request is closed with the
hold flag whenever adding the next serialized access would push its payload
beyond `0x3BFF` bytes — so every emitted wire request (flag byte included)
is at most the `0x3C00`-byte limit, every non-final request ends with the
hold flag `0x01`, and the final request ends with `0x00` when
`release_debug_port` is true and `0x01` otherwise.  (The number of emitted
requests is *not* `⌈total/limit⌉` in general — see the counterexample.) -/
theorem direct_access_bundle_split (accesses : List DirectAccess) (release : Bool)
    (h : ∀ a ∈ accesses, ∃ b, a._serialize = .ok b ∧
      b.length ≤ EMU_CBMAXDATASIZE - 1) :
    ∃ reqs, getRequests accesses release = .ok reqs ∧
      reqs ≠ [] ∧
      (∀ r ∈ reqs, r ≠ [] ∧ r.length ≤ EMU_CBMAXDATASIZE) ∧
      (∀ r ∈ reqs.dropLast, r.getLast? = some 1) ∧
      reqs.getLast?.bind List.getLast? = some (if release then 0 else 1) := by
  obtain ⟨reqs, hres, hlt, hall, hflags, hlast⟩ :=
    getRequestsGo_spec release accesses [] [] h (by simp) (by simp)
  exact ⟨reqs, hres, by
    intro hnil; rw [hnil] at hlt; simp at hlt, hall, hflags, hlast⟩

/-- Witness for claim C5 (amended): two small get-info accesses, released. -/
theorem direct_access_bundle_split_witness :
    ∃ reqs, getRequests [.getInfo 0 0 100, .getInfo 0 0 101] true = .ok reqs ∧
      reqs ≠ [] ∧
      (∀ r ∈ reqs, r ≠ [] ∧ r.length ≤ EMU_CBMAXDATASIZE) ∧
      (∀ r ∈ reqs.dropLast, r.getLast? = some 1) ∧
      reqs.getLast?.bind List.getLast? = some (if true then 0 else 1) :=
  direct_access_bundle_split [.getInfo 0 0 100, .getInfo 0 0 101] true
    (by
      intro a ha
      rcases List.mem_cons.mp ha with rfl | ha
      · exact ⟨[63, 72, 255, 255, 255, 255, 0, 0, 0, 100, 0], by decide, by decide⟩
      · rcases List.mem_singleton.mp ha with rfl
        exact ⟨[63, 72, 255, 255, 255, 255, 0, 0, 0, 101, 0], by decide, by decide⟩)

/-- A raw shift access whose serialized form is exactly 8192 bytes:
6-byte header plus `2 + 2 + 4 + 8178` payload bytes (TDI pattern of 8178
bytes, 65424 bits shifted, no TDO capture). -/
def bigShiftAccess : DirectAccess :=
  .shiftRaw 65424 none (some (List.replicate 8178 0)) false
    ⟨false, false, false, false⟩

/-- The serialized form of `bigShiftAccess`. -/
def bigShiftBytes : List Nat :=
  serializeDaHeader 14 65488 ++
    shiftRawPayload 65424 none (some (List.replicate 8178 0)) false
      ⟨false, false, false, false⟩

theorem bigShiftPayload_length :
    (shiftRawPayload 65424 none (some (List.replicate 8178 0)) false
      ⟨false, false, false, false⟩).length = 8186 := by
  unfold shiftRawPayload
  rw [if_neg (by exact fun h => h rfl)]
  rw [if_pos (by
    intro h
    have hl := congrArg List.length h
    simp only [Option.getD_some, List.length_replicate, List.length_nil] at hl
    exact absurd hl (by norm_num))]
  rw [if_neg (by intro h; exact Option.noConfusion h.2.1)]
  rw [List.append_nil, List.append_nil, Option.getD_some]
  rw [List.length_append, List.length_append, List.length_append,
    leBytes_length, leBytes_length, List.length_replicate]
  rfl

theorem bigShift_serialize :
    bigShiftAccess._serialize = .ok bigShiftBytes := by
  unfold bigShiftAccess
  simp only [DirectAccess._serialize]
  rw [if_pos (by norm_num)]
  rw [bigShiftPayload_length]
  rfl

theorem bigShiftBytes_length : bigShiftBytes.length = 8192 := by
  unfold bigShiftBytes
  rw [List.length_append, bigShiftPayload_length,
    show (serializeDaHeader 14 65488).length = 6 from by decide]

/-- Counterexample to claim C5 as stated: three accesses of 8192 serialized
bytes each (total 24576, limit `0x3C00 = 15360`) are split greedily into
**3** wire requests, not `⌈24576 / 15360⌉ = 2`: greedy packing closes a
request as soon as the next access would overflow, so request counts can
exceed the ceiling. -/
theorem direct_access_requests_exceed_ceiling :
    (getRequests [bigShiftAccess, bigShiftAccess, bigShiftAccess] true).map
        List.length = .ok 3 ∧
    (3 * 8192 + EMU_CBMAXDATASIZE - 1) / EMU_CBMAXDATASIZE = 2 ∧
    (3 : Nat) ≠ 2 := by
  refine ⟨?_, by decide, by decide⟩
  have hsmall : ¬(EMU_CBMAXDATASIZE - 1 < bigShiftBytes.length) := by
    rw [bigShiftBytes_length]; decide
  have hbig : ∀ q : List Nat, q.length = 8192 →
      EMU_CBMAXDATASIZE - 1 < q.length + bigShiftBytes.length := by
    intro q hq; rw [hq, bigShiftBytes_length]; decide
  have hrun : getRequests [bigShiftAccess, bigShiftAccess, bigShiftAccess] true =
      .ok [bigShiftBytes ++ [1], bigShiftBytes ++ [1], bigShiftBytes ++ [0]] := by
    unfold getRequests
    rw [getRequestsGo_cons true _ _ _ _ _ bigShift_serialize]
    rw [if_neg hsmall]
    rw [if_neg (by rw [bigShiftBytes_length]; decide)]
    simp only [List.nil_append]
    rw [getRequestsGo_cons true _ _ _ _ _ bigShift_serialize]
    rw [if_neg hsmall, if_pos (hbig _ bigShiftBytes_length)]
    rw [getRequestsGo_cons true _ _ _ _ _ bigShift_serialize]
    rw [if_neg hsmall, if_pos (hbig _ bigShiftBytes_length)]
    rw [getRequestsGo_nil]
    simp
  rw [hrun]
  rfl

end T32
